import Mathlib

/-!
Shallow embedding of the reactive dialog / bistable-transition subsystem of
the `obsidian_ui` crates (dialog widget, swatch widget, focus-within signal,
bistable transition controller, animated property transitions).

Conventions of the embedding:
* Time (durations, elapsed time, frame deltas) and animated property values
  are modelled as exact rationals `ℚ` instead of `f32`; the claims settled
  here are about ordering, clamping and exact endpoints, which the rational
  model captures faithfully.
* Reactive effects are modelled as pure functions of the signal values they
  read: an effect body that reads the transition-state signal becomes a
  function of `BistableTransitionState`.
* Rust's `Option::unwrap` is modelled as `Except String`, the `error` case
  standing for the panic/abort.
-/

/-- The six-phase lifecycle state driving enter/exit animations
(`BistableTransitionState` in `obsidian_ui::hooks`). -/
inductive BistableTransitionState where
  | EnterStart
  | Entering
  | Entered
  | ExitStart
  | Exiting
  | Exited
  deriving DecidableEq, Repr

open BistableTransitionState

/-- Modelled from the spec: the bistable transition controller created by
`create_bistable_transition` lives in the `bevy_reactor` crate, whose source
is not among the provided files; its attributes follow spec section 3:
`isOpen` is the latest observed value of the driving boolean signal (`open`
in the spec), `duration` the transition length, `elapsed` the time since the
current phase began, `state` the six-state lifecycle value. -/
structure BistableTransition where
  isOpen : Bool
  duration : ℚ
  elapsed : ℚ
  state : BistableTransitionState
  deriving DecidableEq, Repr

/-- Modelled from the spec: `create_bistable_transition(open_signal, duration)`
yields the initial controller: state `Entered` when the driving signal is
currently true, else `Exited`, with no animation playing. Terminal states
keep `elapsed` clamped at `duration` (spec section 4.1 step 3 clamps), so the
fresh terminal controller carries `elapsed = duration`. -/
def create_bistable_transition (openNow : Bool) (d : ℚ) : BistableTransition :=
  { isOpen := openNow, duration := d, elapsed := d,
    state := if openNow then Entered else Exited }

/-- Modelled from the spec: one scheduling tick of the bistable transition
controller (spec section 4.1 steps 1-4). Reads the driving signal; on a flip
it starts a new phase at the matching `*Start` state with `elapsed = 0`
(duration 0 collapses `*Start` to the terminal state within the same tick);
otherwise `*Start` states last exactly one tick before `Entering`/`Exiting`,
which advance `elapsed` by the frame delta and transition to the terminal
state, clamping `elapsed`, once `elapsed >= duration`. -/
def BistableTransition.tick (c : BistableTransition) (openNow : Bool)
    (delta : ℚ) : BistableTransition :=
  if openNow ≠ c.isOpen then
    if c.duration = 0 then
      { isOpen := openNow, duration := c.duration, elapsed := 0,
        state := if openNow then Entered else Exited }
    else
      { isOpen := openNow, duration := c.duration, elapsed := 0,
        state := if openNow then EnterStart else ExitStart }
  else
    match c.state with
    | EnterStart => { c with state := Entering }
    | ExitStart => { c with state := Exiting }
    | Entering =>
      if c.duration ≤ c.elapsed + delta then
        { c with state := Entered, elapsed := c.duration }
      else
        { c with elapsed := c.elapsed + delta }
    | Exiting =>
      if c.duration ≤ c.elapsed + delta then
        { c with state := Exited, elapsed := c.duration }
      else
        { c with elapsed := c.elapsed + delta }
    | Entered => c
    | Exited => c

/-- Modelled from the spec: the states the controller passes through during
one tick, in order (the zero-duration edge case of spec section 4.1 collapses
`*Start` to the terminal state within the same tick, so on a flip with
duration 0 both states are traversed; otherwise the tick ends in the single
state `BistableTransition.tick` computes). -/
def BistableTransition.tickStates (c : BistableTransition) (openNow : Bool)
    (delta : ℚ) : List BistableTransitionState :=
  if openNow ≠ c.isOpen then
    if c.duration = 0 then
      if openNow then [EnterStart, Entered] else [ExitStart, Exited]
    else
      if openNow then [EnterStart] else [ExitStart]
  else [(c.tick openNow delta).state]

/-- Folding a sequence of scheduling ticks with a fixed driving-signal value
over the controller. -/
def BistableTransition.run (c : BistableTransition) (openNow : Bool) :
    List ℚ → BistableTransition
  | [] => c
  | d :: ds => ((c.tick openNow d).run openNow ds)

/-- A controller state reachable from some creation by scheduling ticks with
nonnegative frame deltas. -/
inductive BistableTransition.Reachable : BistableTransition → Prop where
  | created (b : Bool) (d : ℚ) : Reachable (create_bistable_transition b d)
  | step {c : BistableTransition} (b : Bool) {δ : ℚ} :
      Reachable c → 0 ≤ δ → Reachable (c.tick b δ)

/-- Callbacks are identified opaquely; only their presence matters here. -/
abbrev Callback := Nat

/-- An RGBA color with exact rational channels (models `bevy::render::color::Color`
as used by the dialog and swatch effects). -/
structure Color where
  red : ℚ
  green : ℚ
  blue : ℚ
  alpha : ℚ
  deriving DecidableEq, Repr

/-- `Color::with_alpha`: replace only the alpha channel. -/
def Color.with_alpha (c : Color) (a : ℚ) : Color := { c with alpha := a }

/-- A 3-vector with exact rational components (models `bevy::math::Vec3`). -/
structure Vec3 where
  x : ℚ
  y : ℚ
  z : ℚ
  deriving DecidableEq, Repr

/-- `Vec3::splat`: the same value in all three components. -/
def Vec3.splat (v : ℚ) : Vec3 := ⟨v, v, v⟩

/-- Whether the `Cond` view mounts its positive branch (the dialog content)
or the empty negative branch. -/
inductive DialogContent where
  | mounted
  | unmounted
  deriving DecidableEq, Repr

/-- The `Cond` combinator of `Dialog::create`: a boolean test selecting
between the mounted content and the empty view. -/
def condView (test : Bool) (pos : DialogContent) (neg : DialogContent) :
    DialogContent := if test then pos else neg

/-- The dialog content mounted by `Dialog::create` as a function of the
transition-state signal: the `Cond` test is `state != Exited`, the positive
branch is the overlay/frame content, the negative branch is the unit view
(dialog.rs lines 91-93, 169). -/
def dialogView (s : BistableTransitionState) : DialogContent :=
  condView (s != Exited) DialogContent.mounted DialogContent.unmounted

/-- The `on_exited` effect of `Dialog::create` (dialog.rs lines 82-89) as a
function of the signal value it reads: returns whether the effect body runs
the `on_exited` callback on this recomputation. -/
def dialogOnExitedEffect (s : BistableTransitionState)
    (on_exited : Option Callback) : Bool :=
  if s = Exited then on_exited.isSome else false

/-- The overlay background-color animation target chosen by the dialog's
first `create_effect` (dialog.rs lines 118-134), as a function of the
transition state; `u2` is the `colors::U2` palette constant (its channel
values are defined outside the provided sources and do not matter here). -/
def overlayColorTarget (u2 : Color) (s : BistableTransitionState) : Color :=
  match s with
  | Entering | Entered | ExitStart => u2.with_alpha (7/10)
  | EnterStart | Exiting | Exited => u2.with_alpha 0

/-- The dialog frame scale animation target chosen by the dialog's second
`create_effect` (dialog.rs lines 148-164), as a function of the transition
state. -/
def frameScaleTarget (s : BistableTransitionState) : Vec3 :=
  match s with
  | EnterStart | Exiting | Exited => Vec3.splat 0
  | Entering | Entered | ExitStart => Vec3.splat 1

/-- C1: For every value of the dialog's transition-state signal, the dialog's
content (overlay and frame) is mounted if and only if the state is not
`Exited`; `Exited` is the only state in which that content is unmounted. -/
theorem dialog_cond_mounted_iff_not_exited (s : BistableTransitionState) :
    (dialogView s = DialogContent.mounted ↔ s ≠ Exited)
    ∧ (dialogView s = DialogContent.unmounted ↔ s = Exited) := by
  cases s <;> simp [dialogView, condView]

/-- C2: Whenever an `on_exited` callback is present, the dialog's reactive
effect runs it if and only if the transition-state signal's value is
`Exited`; it never runs for the other five variants. -/
theorem dialog_on_exited_effect_iff_exited (s : BistableTransitionState)
    (cb : Option Callback) (h : cb.isSome = true) :
    dialogOnExitedEffect s cb = true ↔ s = Exited := by
  cases s <;> simp [dialogOnExitedEffect, h]

/-- Witness for C2 at a concrete input: with a callback present and the state
`Exited`, the effect runs the callback. -/
theorem dialog_on_exited_effect_iff_exited_witness :
    dialogOnExitedEffect Exited (some 0) = true :=
  (dialog_on_exited_effect_iff_exited Exited (some 0) rfl).mpr rfl

/-- C7: `create_bistable_transition` yields a controller whose initial state
is `Entered` if the driving signal is currently true and `Exited` otherwise,
and that controller is a fixed point of the scheduling tick while the signal
keeps its value: no animation plays for the initial value. -/
theorem create_bistable_transition_initial (b : Bool) (d δ : ℚ) :
    ((create_bistable_transition b d).state = if b then Entered else Exited)
    ∧ (create_bistable_transition b d).tick b δ = create_bistable_transition b d := by
  cases b <;> simp [create_bistable_transition, BistableTransition.tick]

/-- C9: The dialog's animated targets are a pure function of the transition
state: the overlay target is `U2` at alpha 0.7 and the frame scale target is
`Vec3::splat(1)` exactly for `Entering`, `Entered`, `ExitStart`; the overlay
target is `U2` at alpha 0 and the scale target `Vec3::splat(0)` exactly for
`EnterStart`, `Exiting`, `Exited` — in particular the one-tick `EnterStart`
phase carries the closed-state targets. -/
theorem dialog_animation_targets_pure (u2 : Color) (s : BistableTransitionState) :
    (overlayColorTarget u2 s = u2.with_alpha (7/10)
      ↔ (s = Entering ∨ s = Entered ∨ s = ExitStart))
    ∧ (overlayColorTarget u2 s = u2.with_alpha 0
      ↔ (s = EnterStart ∨ s = Exiting ∨ s = Exited))
    ∧ (frameScaleTarget s = Vec3.splat 1
      ↔ (s = Entering ∨ s = Entered ∨ s = ExitStart))
    ∧ (frameScaleTarget s = Vec3.splat 0
      ↔ (s = EnterStart ∨ s = Exiting ∨ s = Exited)) := by
  cases s <;>
    simp [overlayColorTarget, frameScaleTarget, Color.with_alpha, Vec3.splat,
      Color.mk.injEq, Vec3.mk.injEq] <;>
    norm_num

/-- Linear interpolation between two rational values. -/
def lerp (a b t : ℚ) : ℚ := a + (b - a) * t

/-- Clamp a rational to the unit interval. -/
def clamp01 (x : ℚ) : ℚ := max 0 (min x 1)

/-- Modelled from the spec: `AnimatedTransition` lives in the
`obsidian_ui::animation` module, whose source is not among the provided
files; fields follow spec section 3. The animated property value is modelled
as a single rational channel (each channel of an RGBA color or axis of a
scale vector is interpolated independently, so one channel captures the
per-channel behavior). -/
structure AnimatedTransition where
  start_value : ℚ
  target_value : ℚ
  elapsed : ℚ
  duration : ℚ
  deriving DecidableEq, Repr

/-- Modelled from the spec: the interpolation parameter
`t = clamp(elapsed / duration, 0, 1)`, with `t = 1` immediately when
`duration == 0` (spec section 4.2). -/
def AnimatedTransition.tparam (tr : AnimatedTransition) : ℚ :=
  if tr.duration = 0 then 1 else clamp01 (tr.elapsed / tr.duration)

/-- Modelled from the spec: the current interpolated value
`lerp(start_value, target_value, ease(t))`; the reference easing choice is
linear (`ease(t) = t`), which is monotonic with `ease(0)=0`, `ease(1)=1`. -/
def AnimatedTransition.interp (tr : AnimatedTransition) : ℚ :=
  lerp tr.start_value tr.target_value tr.tparam

/-- Modelled from the spec: `AnimatedTransition::start(entity, target, duration)`
(spec section 4.2). `existing` is the transition record currently attached to
the (entity, property-kind) pair, `current` the property's current value. With
no in-flight record a fresh one starts from the current property value; with
an in-flight record its current interpolated value becomes the new
`start_value` and `elapsed` resets to zero. -/
def AnimatedTransition.start (existing : Option AnimatedTransition)
    (current : ℚ) (target : ℚ) (d : ℚ) : AnimatedTransition :=
  match existing with
  | none =>
    { start_value := current, target_value := target, elapsed := 0, duration := d }
  | some tr =>
    { start_value := tr.interp, target_value := target, elapsed := 0, duration := d }

/-- Modelled from the spec: one scheduling tick of a live transition record
(spec section 4.2): advance `elapsed` by the delta, compute `t`; when `t = 1`
apply `target_value` exactly and remove the record (`none`), otherwise apply
the interpolated value and keep the record. Returns the value applied to the
property and the surviving record. -/
def AnimatedTransition.update (tr : AnimatedTransition) (delta : ℚ) :
    ℚ × Option AnimatedTransition :=
  let tr2 := { tr with elapsed := tr.elapsed + delta }
  if tr2.tparam = 1 then (tr.target_value, none)
  else (tr2.interp, some tr2)

/-- C5: Calling `start` on an in-flight transition replaces it so that the
new `start_value` is exactly the previous record's interpolated value at the
moment of the call, the target is the new target, and `elapsed` resets to 0;
in particular restarting at interpolation parameter 1/2 toward the old target
starts exactly from the half-way interpolated value (no discontinuity — the
rational model is exact). -/
theorem animated_transition_restart_continuity (tr : AnimatedTransition)
    (current target d : ℚ) :
    ((AnimatedTransition.start (some tr) current target d).start_value = tr.interp)
    ∧ ((AnimatedTransition.start (some tr) current target d).target_value = target)
    ∧ ((AnimatedTransition.start (some tr) current target d).elapsed = 0)
    ∧ (tr.tparam = 1/2 →
        (AnimatedTransition.start (some tr) current target d).start_value
          = lerp tr.start_value tr.target_value (1/2)) := by
  refine ⟨rfl, rfl, rfl, fun h => ?_⟩
  simp [AnimatedTransition.start, AnimatedTransition.interp, h]

/-- Witness for C5 at a concrete input: a transition from 0 to 10 over
duration 2 with elapsed 1 sits at parameter 1/2; restarting toward 3 starts
from the half-way value. -/
theorem animated_transition_restart_continuity_witness :
    (AnimatedTransition.start
        (some { start_value := 0, target_value := 10, elapsed := 1, duration := 2 })
        0 3 2).start_value
      = lerp 0 10 (1/2) :=
  (animated_transition_restart_continuity
      { start_value := 0, target_value := 10, elapsed := 1, duration := 2 } 0 3 2).2.2.2
    (by norm_num [AnimatedTransition.tparam, clamp01])

/-- C6: On the first tick where `elapsed >= duration` (equivalently `t = 1`),
the value applied to the property is exactly `target_value` and the
transition record is removed on that same tick. -/
theorem animated_transition_terminal_exact (tr : AnimatedTransition)
    (delta : ℚ) (hd : 0 ≤ tr.duration)
    (hfin : tr.duration ≤ tr.elapsed + delta) :
    tr.update delta = (tr.target_value, none) := by
  have ht : AnimatedTransition.tparam { tr with elapsed := tr.elapsed + delta } = 1 := by
    rcases eq_or_lt_of_le hd with h0 | hpos
    · simp [AnimatedTransition.tparam, ← h0]
    · have h1 : (1 : ℚ) ≤ (tr.elapsed + delta) / tr.duration :=
        (one_le_div hpos).mpr hfin
      simp only [AnimatedTransition.tparam, clamp01]
      rw [if_neg (ne_of_gt hpos)]
      rw [min_eq_right h1, max_eq_right zero_le_one]
  simp [AnimatedTransition.update, ht]

/-- Witness for C6 at a concrete input: a transition of duration 2 with
elapsed 1 ticked by 3 applies its exact target and is removed. -/
theorem animated_transition_terminal_exact_witness :
    AnimatedTransition.update
        { start_value := 0, target_value := 10, elapsed := 1, duration := 2 } 3
      = (10, none) :=
  animated_transition_terminal_exact
    { start_value := 0, target_value := 10, elapsed := 1, duration := 2 } 3
    (by norm_num) (by norm_num)

/-- C3: A flip of the driving signal never skips the matching `*Start` phase:
from any controller state (in particular `Exiting` or `Entering`), the first
state entered during the flip tick is `EnterStart` when the signal flips to
true and `ExitStart` when it flips to false, `elapsed` resets to 0 (the
opposite animation restarts from scratch), and for positive durations the
flip tick ends in that `*Start` state (a zero duration collapses it to the
terminal state within the same tick, per spec section 4.1). -/
theorem bistable_flip_enters_start_phase (c : BistableTransition) (b : Bool)
    (δ : ℚ) (hflip : b ≠ c.isOpen) :
    ((c.tickStates b δ).head? = some (if b then EnterStart else ExitStart))
    ∧ ((c.tick b δ).elapsed = 0)
    ∧ (0 < c.duration →
        (c.tick b δ).state = (if b then EnterStart else ExitStart)) := by
  refine ⟨?_, ?_, fun hd => ?_⟩
  · by_cases h0 : c.duration = 0 <;>
      cases b <;> simp [BistableTransition.tickStates, hflip, h0]
  · by_cases h0 : c.duration = 0 <;>
      simp [BistableTransition.tick, hflip, h0]
  · have h0 : c.duration ≠ 0 := ne_of_gt hd
    cases b <;> simp [BistableTransition.tick, hflip, h0]

/-- Witness for C3 at a concrete input: flipping to true while the controller
is `Exiting` restarts at `EnterStart` with `elapsed = 0`. -/
theorem bistable_flip_enters_start_phase_witness :
    ((BistableTransition.tickStates
        { isOpen := false, duration := 3, elapsed := 1, state := Exiting }
        true (1/10)).head? = some EnterStart)
    ∧ ((BistableTransition.tick
        { isOpen := false, duration := 3, elapsed := 1, state := Exiting }
        true (1/10)).elapsed = 0)
    ∧ ((BistableTransition.tick
        { isOpen := false, duration := 3, elapsed := 1, state := Exiting }
        true (1/10)).state = EnterStart) := by
  have h := bistable_flip_enters_start_phase
    { isOpen := false, duration := 3, elapsed := 1, state := Exiting }
    true (1/10) (by decide)
  exact ⟨h.1, h.2.1, h.2.2 (by norm_num)⟩

/-- Key codes: only `Escape` is distinguished by the dialog handler. -/
inductive KeyCode where
  | Escape
  | Other
  deriving DecidableEq, Repr

/-- The `ListenerInput<KeyPressEvent>` resource fields read by the dialog key
handler. -/
structure ListenerInput where
  isRepeat : Bool
  key_code : KeyCode
  deriving DecidableEq, Repr

/-- Rust's `Option::unwrap`: the value on `Some`, a panic (modelled as
`Except.error`) on `None`. -/
def rustUnwrap {α : Type} : Option α → Except String α
  | some a => Except.ok a
  | none => Except.error "called Option unwrap on a None value"

/-- Whether an `Except` computation succeeded. -/
def exceptOk {ε α : Type} : Except ε α → Bool
  | Except.ok _ => true
  | Except.error _ => false

/-- The swatch background effect (swatch.rs lines 62-66): read the entity's
`BackgroundColor` component with `unwrap` and overwrite it with the signal's
color; returns the written component value, or the panic when the component
is missing. -/
def swatchBackgroundEffect (bg : Option Color) (color : Color) :
    Except String Color :=
  (rustUnwrap bg).map fun _ => color

/-- The dialog `KeyPressEvent` handler (dialog.rs lines 104-116): fetch the
`ListenerInput<KeyPressEvent>` resource with `unwrap`; on a non-repeated
Escape, stop propagation and run `on_close` when present. Returns
(propagation stopped, `on_close` run), or the panic when the resource is
missing. -/
def dialogKeyPressHandler (res : Option ListenerInput)
    (on_close : Option Callback) : Except String (Bool × Bool) :=
  (rustUnwrap res).map fun event =>
    if ¬ event.isRepeat ∧ event.key_code = KeyCode.Escape then
      (true, on_close.isSome)
    else
      (false, false)

/-- C8: Operations reading a required component/resource fail fast when it is
missing and succeed when it is present: the swatch background effect and the
dialog key handler abort (unwrap panic) exactly when the `BackgroundColor`
component, resp. the `ListenerInput<KeyPressEvent>` resource, is absent. -/
theorem missing_component_fails_fast (bg : Option Color) (color : Color)
    (res : Option ListenerInput) (cb : Option Callback) :
    (exceptOk (swatchBackgroundEffect bg color) = bg.isSome)
    ∧ (exceptOk (dialogKeyPressHandler res cb) = res.isSome) := by
  constructor
  · cases bg <;> rfl
  · cases res <;> simp [dialogKeyPressHandler, rustUnwrap, exceptOk, Except.map]

/-- One tick preserves the clamp property: a terminal state carries
`elapsed >= duration`. -/
theorem bistable_tick_preserves_clamp (c : BistableTransition) (b : Bool)
    (δ : ℚ)
    (ih : (c.state = Entered ∨ c.state = Exited) → c.duration ≤ c.elapsed) :
    ((c.tick b δ).state = Entered ∨ (c.tick b δ).state = Exited) →
      (c.tick b δ).duration ≤ (c.tick b δ).elapsed := by
  obtain ⟨o, d, e, s⟩ := c
  simp only at ih
  unfold BistableTransition.tick
  by_cases hflip : b ≠ o
  · by_cases h0 : d = 0
    · cases b <;> simp [hflip, h0]
    · cases b <;> simp [hflip, h0]
  · cases s <;> simp only [if_neg hflip]
    · simp
    · by_cases hc : d ≤ e + δ
      · simp [hc]
      · simp [hc]
    · exact fun _ => ih (Or.inl rfl)
    · simp
    · by_cases hc : d ≤ e + δ
      · simp [hc]
      · simp [hc]
    · exact fun _ => ih (Or.inr rfl)

/-- Every reachable controller satisfies the clamp property. -/
theorem bistable_reachable_clamp {c : BistableTransition} (h : c.Reachable) :
    (c.state = Entered ∨ c.state = Exited) → c.duration ≤ c.elapsed := by
  induction h with
  | created b d => intro _; simp [create_bistable_transition]
  | step b hr hδ ih => exact bistable_tick_preserves_clamp _ b _ ih

/-- A non-flip tick from `Entered` leaves the controller unchanged. -/
theorem bistable_tick_entered_fixed (c : BistableTransition) (b : Bool)
    (δ : ℚ) (ho : c.isOpen = b) (hs : c.state = Entered) : c.tick b δ = c := by
  obtain ⟨o, d, e, s⟩ := c
  simp only at ho hs
  subst ho; subst hs
  simp [BistableTransition.tick]

/-- Any run of non-flip ticks from `Entered` leaves the controller
unchanged. -/
theorem bistable_run_entered_fixed (b : Bool) (ds : List ℚ)
    (c : BistableTransition) (ho : c.isOpen = b) (hs : c.state = Entered) :
    c.run b ds = c := by
  induction ds generalizing c with
  | nil => rfl
  | cons d ds ih =>
    rw [BistableTransition.run, bistable_tick_entered_fixed c b d ho hs]
    exact ih c ho hs

/-- A non-flip tick from `Entering` either completes (once
`elapsed + delta` reaches the duration) or accumulates the delta. -/
theorem bistable_tick_entering (c : BistableTransition) (b : Bool) (δ : ℚ)
    (ho : c.isOpen = b) (hs : c.state = Entering) :
    c.tick b δ =
      if c.duration ≤ c.elapsed + δ then
        { c with state := Entered, elapsed := c.duration }
      else
        { c with elapsed := c.elapsed + δ } := by
  obtain ⟨o, d, e, s⟩ := c
  simp only at ho hs
  subst ho; subst hs
  simp [BistableTransition.tick]

/-- Liveness of the enter animation: from `Entering`, a nonempty run whose
deltas bring `elapsed` up to the duration ends in `Entered`. -/
theorem bistable_run_entering_completes (b : Bool) :
    ∀ (ds : List ℚ) (c : BistableTransition), c.isOpen = b →
      c.state = Entering → c.duration ≤ c.elapsed + ds.sum → ds ≠ [] →
      (c.run b ds).state = Entered := by
  intro ds
  induction ds with
  | nil => exact fun c _ _ _ hne => absurd rfl hne
  | cons d ds ih =>
    intro c ho hs hsum _
    rw [BistableTransition.run]
    by_cases hc : c.duration ≤ c.elapsed + d
    · have ht : c.tick b d = { c with state := Entered, elapsed := c.duration } := by
        rw [bistable_tick_entering c b d ho hs, if_pos hc]
      rw [ht, bistable_run_entered_fixed b ds
        { c with state := Entered, elapsed := c.duration } ho rfl]
    · have ht : c.tick b d = { c with elapsed := c.elapsed + d } := by
        rw [bistable_tick_entering c b d ho hs, if_neg hc]
      cases ds with
      | nil =>
        exfalso
        apply hc
        simpa using hsum
      | cons d2 ds2 =>
        rw [ht]
        refine ih _ ho hs ?_ (by simp)
        show c.duration ≤ c.elapsed + d + (d2 :: ds2).sum
        simp only [List.sum_cons] at hsum ⊢
        linarith

/-- C4: In every reachable controller state, the state is `Entered` or
`Exited` only when `elapsed >= duration` since the last phase start (for
duration zero this is immediate); moreover for every duration `d > 0`,
after flipping the driving signal to true the controller does reach
`Entered` once the accumulated deltas cover `d` — and, by the first part,
never before `elapsed` reaches `d`. -/
theorem bistable_terminal_requires_elapsed :
    (∀ c : BistableTransition, c.Reachable →
        (c.state = Entered ∨ c.state = Exited) → c.duration ≤ c.elapsed)
    ∧ (∀ (d δ1 δ2 : ℚ) (ds : List ℚ), 0 < d → d ≤ ds.sum → ds ≠ [] →
        ((((create_bistable_transition false d).tick true δ1).tick true
            δ2).run true ds).state = Entered) := by
  constructor
  · exact fun c h => bistable_reachable_clamp h
  · intro d δ1 δ2 ds hd hsum hne
    have h1 : (create_bistable_transition false d).tick true δ1
        = { isOpen := true, duration := d, elapsed := 0, state := EnterStart } := by
      simp [create_bistable_transition, BistableTransition.tick, hd.ne']
    have h2 : (BistableTransition.tick
          { isOpen := true, duration := d, elapsed := 0, state := EnterStart }
          true δ2)
        = { isOpen := true, duration := d, elapsed := 0, state := Entering } := by
      simp [BistableTransition.tick]
    rw [h1, h2]
    exact bistable_run_entering_completes true ds
      { isOpen := true, duration := d, elapsed := 0, state := Entering }
      rfl rfl (by simpa using hsum) hne

/-- Witness for C4 at concrete inputs: a freshly created open controller of
duration 5 satisfies the clamp, and a closed controller of duration 1
flipped open reaches `Entered` after a tick of total delta 1. -/
theorem bistable_terminal_requires_elapsed_witness :
    ((create_bistable_transition true 5).duration
      ≤ (create_bistable_transition true 5).elapsed)
    ∧ ((((create_bistable_transition false 1).tick true 0).tick true 0).run
        true [1]).state = Entered := by
  constructor
  · exact bistable_terminal_requires_elapsed.1 (create_bistable_transition true 5)
      (BistableTransition.Reachable.created true 5) (Or.inl rfl)
  · exact bistable_terminal_requires_elapsed.2 1 0 0 [1] (by norm_num)
      (by simp) (by simp)

/-- Entities are identified by their index. -/
abbrev Entity := Nat

/-- The slice of the `World` read by the focus signal: which entities exist,
each entity's optional `Parent` component, and the `Focus` resource. -/
structure World where
  entities : List Entity
  parentOf : Entity → Option Entity
  focus : Option Entity

/-- The single step of the `is_descendant` loop
(`world.get_entity(*ha).map(|e| e.get::<Parent>())`, focus_signal.rs line 15):
`some p` exactly when the entity exists and has a `Parent` component; any
other outcome makes the loop return false. -/
def World.parentStep (w : World) (e : Entity) : Option Entity :=
  if e ∈ w.entities then w.parentOf e else none

/-- The `is_descendant` loop (focus_signal.rs lines 9-20), with an explicit
fuel bound on the number of iterations; the source's unbounded `loop`
terminates on the acyclic hierarchies Bevy maintains, which the fuel makes
explicit. -/
def is_descendant_fuel (w : World) (ancestor : Entity) :
    Nat → Entity → Bool
  | 0, _ => false
  | n + 1, ha =>
    if ha = ancestor then true
    else
      match w.parentStep ha with
      | some p => is_descendant_fuel w ancestor n p
      | none => false

/-- `is_descendant(world, e, ancestor)`: walk the `Parent` chain from `e`
until `ancestor` is reached or the chain ends; fuel `|entities| + 1` covers
every terminating walk through an acyclic hierarchy. -/
def is_descendant (w : World) (e : Entity) (ancestor : Entity) : Bool :=
  is_descendant_fuel w ancestor (w.entities.length + 1) e

/-- The derived closure of `create_focus_within_signal` (focus_signal.rs
lines 39-47) as a function of the world slice it reads: true when some
entity has focus and is a descendant of the target. -/
def create_focus_within_signal (w : World) (target : Entity) : Bool :=
  match w.focus with
  | some focus => is_descendant w focus target
  | none => false

/-- The `Parent` chain from `e` reaches `ancestor` (reflexively: an entity
counts as its own descendant). -/
inductive ReachesAncestor (w : World) (ancestor : Entity) : Entity → Prop where
  | refl : ReachesAncestor w ancestor ancestor
  | step {e p : Entity} : w.parentStep e = some p →
      ReachesAncestor w ancestor p → ReachesAncestor w ancestor e

/-- Soundness of the fueled walk: a true answer exhibits a `Parent` chain. -/
theorem is_descendant_fuel_sound (w : World) (ancestor : Entity) :
    ∀ (n : Nat) (e : Entity), is_descendant_fuel w ancestor n e = true →
      ReachesAncestor w ancestor e := by
  intro n
  induction n with
  | zero => intro e h; exact absurd h (by simp [is_descendant_fuel])
  | succ n ih =>
    intro e h
    rw [is_descendant_fuel] at h
    by_cases he : e = ancestor
    · subst he; exact ReachesAncestor.refl
    · rw [if_neg he] at h
      cases hp : w.parentStep e with
      | none => rw [hp] at h; exact absurd h (by simp)
      | some p =>
        rw [hp] at h
        exact ReachesAncestor.step hp (ih p h)

/-- Completeness of the fueled walk on ranked (acyclic) hierarchies: a
`Parent` chain to the ancestor is found by the walk given fuel above the
starting entity's rank. -/
theorem is_descendant_fuel_complete (w : World) (ancestor : Entity)
    (rank : Entity → Nat)
    (hrank : ∀ e p, w.parentStep e = some p → rank p < rank e)
    {e : Entity} (hr : ReachesAncestor w ancestor e) :
    ∀ n : Nat, rank e < n → is_descendant_fuel w ancestor n e = true := by
  induction hr with
  | refl =>
    intro n hn
    match n, hn with
    | m + 1, _ => simp [is_descendant_fuel]
  | step hp hr2 ih =>
    intro n hn
    match n, hn with
    | m + 1, hn =>
      rw [is_descendant_fuel]
      split
      · rfl
      · rw [hp]
        exact ih m (by have := hrank _ _ hp; omega)

/-- C10: On a world whose `Parent` hierarchy is acyclic (witnessed by a rank
function bounded by the entity count), the signal built by
`create_focus_within_signal(target)` is true if and only if some entity has
focus and the `Parent` chain from it reaches `target`; in particular it is
true when the focused entity is `target` itself, and false when nothing has
focus. -/
theorem create_focus_within_signal_correct (w : World) (target : Entity)
    (rank : Entity → Nat)
    (hrank : ∀ e p, w.parentStep e = some p → rank p < rank e)
    (hbound : ∀ e, rank e ≤ w.entities.length) :
    (create_focus_within_signal w target = true ↔
      ∃ f, w.focus = some f ∧ ReachesAncestor w target f)
    ∧ (w.focus = some target → create_focus_within_signal w target = true)
    ∧ (w.focus = none → create_focus_within_signal w target = false) := by
  have hiff : create_focus_within_signal w target = true ↔
      ∃ f, w.focus = some f ∧ ReachesAncestor w target f := by
    constructor
    · intro h
      cases hf : w.focus with
      | none => rw [create_focus_within_signal, hf] at h; exact absurd h (by simp)
      | some f =>
        rw [create_focus_within_signal, hf] at h
        exact ⟨f, rfl, is_descendant_fuel_sound w target _ f h⟩
    · rintro ⟨f, hf, hr⟩
      rw [create_focus_within_signal, hf]
      exact is_descendant_fuel_complete w target rank hrank hr
        (w.entities.length + 1) (by have := hbound f; omega)
  refine ⟨hiff, fun hf => ?_, fun hf => ?_⟩
  · exact hiff.mpr ⟨target, hf, ReachesAncestor.refl⟩
  · rw [create_focus_within_signal, hf]

/-- A concrete three-entity world: the `Parent` chain is 2 → 1 → 0 and
entity 2 has focus. -/
def wFocusExample : World :=
  { entities := [0, 1, 2],
    parentOf := fun e => if e = 0 then none else some (e - 1),
    focus := some 2 }

/-- Witness for C10 at a concrete input: with focus on entity 2 and the
chain 2 → 1 → 0, the focus-within signal for target 0 is true. -/
theorem create_focus_within_signal_correct_witness :
    create_focus_within_signal wFocusExample 0 = true :=
  (create_focus_within_signal_correct wFocusExample 0 (fun e => min e 3)
      (by
        intro e p h
        simp only [wFocusExample, World.parentStep, List.mem_cons,
          List.not_mem_nil, or_false] at h
        split at h
        · split at h
          · exact absurd h (by simp)
          · rename_i hmem hne
            obtain rfl : p = e - 1 := (Option.some.inj h).symm
            rcases hmem with h0 | h1 | h2
            · exact absurd h0 hne
            · subst h1; decide
            · subst h2; decide
        · exact absurd h (by simp))
      (fun e => min_le_right e 3)).1.mpr
    ⟨2, rfl, @ReachesAncestor.step wFocusExample 0 2 1 (by decide)
      (@ReachesAncestor.step wFocusExample 0 1 0 (by decide)
        ReachesAncestor.refl)⟩
